import Mathlib

/-!
Shallow embedding of the blindtest game-session coordinator (src/app.py).

The Python `Room` class and the Socket.IO event handlers are translated into
pure Lean functions over explicit state.  Python dicts (which preserve
insertion order, update keys in place, and append new keys at the end) are
modelled as association lists with the operations `dictSet` / `dictDel`;
timestamps (`datetime` / `time.time()`) are modelled as rationals measured in
seconds; Python `round` (banker's rounding) is `pythonRound`.
-/

namespace Blindtest

/-- Python's built-in `round` on a rational value: round half to even. -/
def pythonRound (q : ℚ) : ℤ :=
  let f : ℤ := ⌊q⌋
  let frac : ℚ := q - f
  if frac < 1/2 then f
  else if 1/2 < frac then f + 1
  else if f % 2 = 0 then f else f + 1

/-- Python dict assignment `m[k] = v`: replace the value of the (unique)
matching key in place, keeping its position, or append the new key at the
end.  A Python dict never holds a key twice, so replacing the first match
is exact. -/
def dictSet {κ α : Type} [BEq κ] (m : List (κ × α)) (k : κ) (v : α) :
    List (κ × α) :=
  match m with
  | [] => [(k, v)]
  | p :: rest => if p.1 == k then (k, v) :: rest else p :: dictSet rest k v

/-- Python dict deletion `del m[k]`: drop the (unique) matching key. -/
def dictDel {κ α : Type} [BEq κ] (m : List (κ × α)) (k : κ) :
    List (κ × α) :=
  match m with
  | [] => []
  | p :: rest => if p.1 == k then rest else p :: dictDel rest k

/-- One generated question (`Room.generate_question` output).  The playback
fields (`track_name`, `preview_url`, `track_uri`) and the fixed colour
palette are irrelevant to every claim and are omitted. -/
structure Question where
  options : List String
  correct_answer : ℕ
  correct_artist : String
deriving DecidableEq

/-- One entry of the answer ledger (`Room.record_answer` payload). -/
structure AnswerRec where
  answer : ℕ
  timestamp : ℚ
  server_received : ℚ
  used_client_time : Bool
deriving DecidableEq

/-- The `client_timestamp` argument of `record_answer` / `submit_answer`:
`absent` is Python `None`; `empty` is a provided but falsy string (`""`);
`invalid` is a truthy string `datetime.fromisoformat` rejects; `valid t` is a
string that parses to the instant `t` (zone offset already stripped). -/
inductive ClientTimestamp where
  | absent
  | empty
  | invalid
  | valid (t : ℚ)
deriving DecidableEq

/-- One participant record (`Room.add_participant` seeds `name`/`score`; the
`disconnected` / `disconnect_time` keys appear only after a disconnect, which
the sweeper reads back with `.get(..., default)`, so a missing key behaves
like `false` / `none`). -/
structure Participant where
  name : String
  score : ℤ
  disconnected : Bool := false
  disconnect_time : Option ℚ := none
deriving DecidableEq

/-- The mutable room state (`Room.__init__`).  `pin`, `playlist_id`,
`token_info`, `created_at` and `colors` never influence the claims and are
omitted. -/
structure Room where
  host_sid : String
  participants : List (String × Participant) := []
  current_question : Option Question := none
  question_index : ℕ := 0
  questions : List Question := []
  state : String := "waiting"
  answers : List (ℕ × List (String × AnswerRec)) := []
  voting_closed : Bool := false
  correct_answer_acks : List String := []
  standings_ready_acks : List String := []
  question_start_scores : List (String × ℤ) := []
  question_start_time : Option ℚ := none
  games_in_series : ℕ := 1
  current_game_number : ℕ := 1
  series_scores : List (String × ℤ) := []
  all_questions : List Question := []
  game_questions_map : List (ℕ × List ℕ) := []
  host_disconnected : Bool := false
  host_disconnect_time : Option ℚ := none
deriving DecidableEq

/-- `Room.add_participant`: insert with score 0 and, if absent, seed the
series score with 0. -/
def Room.add_participant (room : Room) (sid name : String) : Room :=
  { room with
    participants := dictSet room.participants sid { name := name, score := 0 }
    series_scores :=
      if (room.series_scores.lookup sid).isSome then room.series_scores
      else dictSet room.series_scores sid 0 }

/-- `Room.remove_participant`: delete if present, no-op otherwise. -/
def Room.remove_participant (room : Room) (sid : String) : Room :=
  { room with participants := dictDel room.participants sid }

/-- `Room.record_answer`: resolve the timestamp (client time if provided and
parseable, otherwise server receipt time `now`) and store the entry under the
current question index, overwriting any existing entry for `sid`.  Python
calls `datetime.now()` twice (fallback and `server_received`); both calls are
modelled by the single instant `now`. -/
def Room.record_answer (room : Room) (sid : String) (answer : ℕ)
    (client_timestamp : ClientTimestamp) (now : ℚ) : Room :=
  let qMap := (room.answers.lookup room.question_index).getD []
  let timestamp : ℚ :=
    match client_timestamp with
    | .valid t => t
    | _ => now
  let entry : AnswerRec :=
    { answer := answer,
      timestamp := timestamp,
      server_received := now,
      used_client_time := client_timestamp ≠ .absent }
  let newAnswers := dictSet room.answers room.question_index (dictSet qMap sid entry)
  { room with answers := newAnswers }

/-- `Room.get_score_multiplier`: 1x for the first 50% of songs, 2x up to 80%,
4x after.  Python computes `int(total_songs * 0.5)` and
`int(total_songs * 0.8)` in binary floating point; for every list length
reachable here (at most 30 questions per game) these equal the exact floors
`total / 2` and `4 * total / 5`, which is how they are rendered. -/
def Room.get_score_multiplier (room : Room) : ℕ :=
  let total_songs := room.questions.length
  let current_song := room.question_index + 1
  let threshold_2x := total_songs / 2
  let threshold_4x := 4 * total_songs / 5
  if current_song ≤ threshold_2x then 1
  else if current_song ≤ threshold_4x then 2
  else 4

/-- Body of `Room.calculate_speed_points` after the two lookups
(`self.answers.get(self.question_index, {})` and
`self.current_question['correct_answer']`): rank the correct responders by
resolved timestamp (Python's `list.sort` is a stable ascending sort, rendered
here by the stable `insertionSort`), apply the rank decay and the floored
time coefficient, and round. -/
def speedPoints (current_answers : List (String × AnswerRec))
    (correct_answer_index : ℕ) (sid : String) : ℤ :=
  let correct_answers :=
    (current_answers.filter (fun p => p.2.answer == correct_answer_index)).map
      (fun p => (p.1, p.2.timestamp))
  let sorted := correct_answers.insertionSort (fun a b => a.2 ≤ b.2)
  let rank : ℕ := (((sorted.findIdx? (fun a => a.1 == sid)).map (· + 1))).getD 1
  let score_base : ℚ := 100 * (1 - (10/100) * ((rank : ℚ) - 1))
  let player_time : ℚ := (((sorted.find? (fun a => a.1 == sid)).map (·.2))).getD 0
  let t_min : ℚ := ((sorted.head?.map (·.2))).getD 0
  let delta_t : ℚ := player_time - t_min
  let facteur_temps : ℚ := max (1 - (12/100) * (delta_t / 15)) (85/100)
  pythonRound (score_base * facteur_temps)

/-- `Room.check_answer`: on a correct answer, add
`speed points x progression multiplier` to the participant's score and
report `true`; otherwise report `false`.  Python writes
`self.participants[sid]['score'] += points`, which presumes `sid` is in the
roster (the submit handler checks that first); the map update below is a
no-op for an absent `sid`. -/
def Room.check_answer (room : Room) (sid : String) (answer : ℕ) :
    Room × Bool :=
  match room.current_question with
  | none => (room, false)
  | some cq =>
    if answer = cq.correct_answer then
      let base_points :=
        speedPoints ((room.answers.lookup room.question_index).getD [])
          cq.correct_answer sid
      let points := base_points * (room.get_score_multiplier : ℤ)
      let updated := room.participants.map
        (fun p => if p.1 == sid
                  then (p.1, { p.2 with score := p.2.score + points })
                  else p)
      ({ room with participants := updated }, true)
    else (room, false)

/-- Broadcast payload of `show_correct_answer` inside
`close_voting_and_show_answer`. -/
structure RevealEvent where
  correct_answer : ℕ
  correct_artist : String
deriving DecidableEq

/-- The room registry `rooms` (pin -> Room). -/
abbrev Registry : Type := List (String × Room)

/-- State effect of `send_question`: snapshot every participant's score into
`question_start_scores`, record `question_start_time = datetime.now()`, and
clear `voting_closed`.  The broadcasts (full payload to the host, colours
only to participants) carry no room state.  When `current_question` is
`none`, building the host payload would raise in Python, hence `none`;
every caller assigns `current_question` first. -/
def send_question (room : Room) (now : ℚ) : Option Room :=
  match room.current_question with
  | none => none
  | some _ =>
    let snapshot := room.participants.map (fun p => (p.1, p.2.score))
    some { room with
           question_start_scores := snapshot,
           question_start_time := some now,
           voting_closed := false }

/-- State effect of the `playback_started` handler: it broadcasts
`start_question_timer` and schedules the `question_timeout` task, capturing
the current question index — it mutates no room state at all.  The result
pairs the unchanged registry with the captured index of the scheduled
timeout task (`none` when the room is unknown and nothing is scheduled). -/
def handle_playback_started (reg : Registry) (pin : String) :
    Registry × Option ℕ :=
  match reg.lookup pin with
  | none => (reg, none)
  | some room => (reg, some room.question_index)

/-- `close_voting_and_show_answer`: set `voting_closed`, clear the
acknowledgment set, and broadcast the correct answer.  The remainder of the
routine (the bounded 2s acknowledgment wait and the standings broadcast to
the host) reads but does not mutate room state and is not modelled.  With
`current_question = none` Python would raise subscripting `None` after the
two mutations; `playing` rooms always carry a question. -/
def close_voting_and_show_answer (reg : Registry) (pin : String) :
    Registry × Option RevealEvent :=
  match reg.lookup pin with
  | none => (reg, none)
  | some room =>
    let room := { room with voting_closed := true, correct_answer_acks := [] }
    match room.current_question with
    | none => (dictSet reg pin room, none)
    | some q => (dictSet reg pin room, some ⟨q.correct_answer, q.correct_artist⟩)

/-- The `question_timeout` task body at fire time (after its 15 second
sleep), applied to the registry as it stands then: re-validate that the room
still exists, that it is still on the captured question index, and that
voting is still open, and only then close voting; otherwise a silent no-op. -/
def question_timeout_fire (reg : Registry) (pin : String)
    (current_question_index : ℕ) : Registry × Option RevealEvent :=
  match reg.lookup pin with
  | none => (reg, none)
  | some room =>
    if room.question_index == current_question_index then
      if !room.voting_closed then close_voting_and_show_answer reg pin
      else (reg, none)
    else (reg, none)

/-- Result reported by the `submit_answer` handler.  `accepted` carries the
correctness feedback and whether the handler observed that every participant
has now answered (in which case it broadcasts `all_participants_voted` and
nothing else: the comment in the source says the question is not ended, the
timer finishes it). -/
inductive SubmitResult where
  | notInRoom
  | votingClosedError
  | alreadyAnswered
  | accepted (correct : Bool) (allAnswered : Bool)
deriving DecidableEq

/-- The `submit_answer` handler for a room that was found under its pin:
reject a non-participant, a submission after voting closed, and a duplicate
submission for the current question; otherwise record the answer, score it,
and check whether every participant has answered. -/
def handle_submit_answer (room : Room) (sid : String) (answer : ℕ)
    (client_timestamp : ClientTimestamp) (now : ℚ) : Room × SubmitResult :=
  if (room.participants.lookup sid).isNone then (room, .notInRoom)
  else if room.voting_closed then (room, .votingClosedError)
  else if (((room.answers.lookup room.question_index).getD []).lookup sid).isSome then
    (room, .alreadyAnswered)
  else
    let room1 := room.record_answer sid answer client_timestamp now
    let checked := room1.check_answer sid answer
    let room2 := checked.1
    let current_answers := (room2.answers.lookup room2.question_index).getD []
    let allAnswered := current_answers.length == room2.participants.length
    (room2, .accepted checked.2 allAnswered)

/-- Outcome of the `wait_for_ready` barrier task of `standings_displayed`. -/
inductive WaitReadyResult where
  | keyErrorRaised
  | seriesEnded
  | gameEnded
  | advanceQuestion
deriving DecidableEq

/-- The `wait_for_ready` barrier task of `standings_displayed` at wake time
(after its bounded acknowledgment wait and minimum-display sleep), applied
to the registry as it stands then.  Unlike `question_timeout`, the task body
indexes `rooms[pin]` directly — inside the wait loop and in every line after
it — without re-checking that the room still exists, so a room deleted
during the wait raises `KeyError` (`keyErrorRaised`); and it recomputes
`is_last_question` from the room's current index rather than a captured one.
On the last question it folds each participant's game score into
`series_scores` and either ends the series (`state = 'ended'`) or ends the
game; otherwise it tells the host to advance. -/
def wait_for_ready_fire (reg : Registry) (pin : String) :
    Registry × WaitReadyResult :=
  match reg.lookup pin with
  | none => (reg, .keyErrorRaised)
  | some room =>
    let is_last_question := decide (room.question_index + 1 ≥ room.questions.length)
    if is_last_question then
      let folded := room.participants.foldl
        (fun acc (p : String × Participant) =>
          dictSet acc p.1 ((acc.lookup p.1).getD 0 + p.2.score))
        room.series_scores
      let room := { room with series_scores := folded }
      let is_last_game := decide (room.current_game_number ≥ room.games_in_series)
      if is_last_game then
        (dictSet reg pin { room with state := "ended" }, .seriesEnded)
      else
        (dictSet reg pin room, .gameEnded)
    else (reg, .advanceQuestion)

/-- `start_next_game` handler: reject a non-host caller; otherwise advance
the game counter, wipe the per-question state, reset every per-game score to
0 (leaving `series_scores` untouched), and load the next pre-generated
question slice.  A missing `game_questions_map` entry or an out-of-range
index would raise in Python (`none` here); `handle_start_game` pre-populates
the map for every game in the series. -/
def handle_start_next_game (room : Room) (sid : String) : Option Room :=
  if room.host_sid != sid then none
  else
    let reset := { room with
      current_game_number := room.current_game_number + 1,
      question_index := 0,
      answers := [],
      voting_closed := false,
      correct_answer_acks := [],
      standings_ready_acks := [],
      question_start_scores := [],
      participants := room.participants.map
        (fun p : String × Participant => (p.1, { p.2 with score := 0 })) }
    match (room.game_questions_map.lookup reset.current_game_number).bind
        (fun idxs => idxs.mapM (fun i => room.all_questions.get? i)) with
    | none => none
    | some [] => none
    | some (q0 :: qs) =>
      some { reset with
             questions := q0 :: qs,
             current_question := some q0,
             state := "playing" }

/-- Payload of `rejoin_success` for a reconnecting host: `state` and the
roster always; the question fields only when the game is in progress;
`should_advance` only when voting is closed and every participant has
acknowledged the standings. -/
structure HostRejoinResponse where
  state : String
  current_question : Option Question := none
  question_number : Option ℕ := none
  total_questions : Option ℕ := none
  voting_closed : Option Bool := none
  should_advance : Bool := false
deriving DecidableEq

/-- The host branch of the `rejoin_room` handler: repoint `host_sid` to the
new connection, clear the disconnect flags, and answer with the current game
state (`none` when the room no longer exists: `rejoin_failed`). -/
def handle_rejoin_host (reg : Registry) (pin new_sid : String) :
    Registry × Option HostRejoinResponse :=
  match reg.lookup pin with
  | none => (reg, none)
  | some room =>
    let room := { room with
      host_sid := new_sid,
      host_disconnected := false,
      host_disconnect_time := none }
    let resp : HostRejoinResponse :=
      if room.state == "playing" then
        { state := room.state,
          current_question := room.current_question,
          question_number := some (room.question_index + 1),
          total_questions := some room.questions.length,
          voting_closed := some room.voting_closed,
          should_advance := room.voting_closed &&
            (room.standings_ready_acks.length == room.participants.length) }
      else { state := room.state }
    (dictSet reg pin room, some resp)

/-- The participant branch of the `rejoin_room` handler: look up the first
roster entry whose display name matches, migrate the score (a fresh entry
under the new sid, `disconnected` cleared, the old sid deleted), migrate the
series score and any answer already recorded for the in-progress question
(set under the new key, then delete the old key), and report the preserved
score.  `none` means `rejoin_failed`: no participant of that name. -/
def handle_rejoin_participant (room : Room) (new_sid name : String) :
    Room × Option ℤ :=
  match room.participants.find? (fun p => p.2.name == name) with
  | none => (room, none)
  | some old =>
    let old_sid := old.1
    let current_score := old.2.score
    let participants1 := dictDel room.participants old_sid
    let participants2 := dictSet participants1 new_sid
      { name := name, score := current_score, disconnected := false }
    let series :=
      if (room.series_scores.lookup old_sid).isSome then
        dictDel (dictSet room.series_scores new_sid
          ((room.series_scores.lookup old_sid).getD 0)) old_sid
      else room.series_scores
    let answers :=
      match (room.answers.lookup room.question_index).bind
          (fun m => (m.lookup old_sid).map (fun a => (m, a))) with
      | some (qMap, aRec) =>
        dictSet room.answers room.question_index
          (dictDel (dictSet qMap new_sid aRec) old_sid)
      | none => room.answers
    ({ room with
       participants := participants2,
       series_scores := series,
       answers := answers },
     some current_score)

/-- The sweeper's grace threshold (`GRACE_PERIOD = 30` seconds). -/
def GRACE_PERIOD : ℚ := 30

/-- The sweeper's host test: `room.host_disconnected and
room.host_disconnect_time` and strictly more than the grace period elapsed.
A timestamp of `none` is Python's falsy `None`; `time.time()` is never the
falsy `0.0`. -/
def host_grace_expired (now : ℚ) (room : Room) : Bool :=
  room.host_disconnected &&
    (match room.host_disconnect_time with
     | some t => decide (now - t > GRACE_PERIOD)
     | none => false)

/-- The sweeper's participant test (`participant.get('disconnected', False)`
and `participant.get('disconnect_time', current_time)`). -/
def participant_grace_expired (now : ℚ) (p : Participant) : Bool :=
  p.disconnected && decide (now - (p.disconnect_time.getD now) > GRACE_PERIOD)

/-- Participant cleanup within one room: drop every grace-expired
participant (Python collects `sids_to_remove` and calls
`remove_participant` for each; the net effect is this filter). -/
def cleanup_room_participants (now : ℚ) (room : Room) : Room :=
  { room with participants :=
      room.participants.filter (fun p => !(participant_grace_expired now p.2)) }

/-- One pass of the sweeper `cleanup_disconnected_participants` over the
registry at time `now`: rooms whose host grace period has expired get a
`room_closed` broadcast and are deleted whole, with participant cleanup
skipped (`continue`); every other room has its expired participants
removed.  The second component lists the pins of the closed rooms. -/
def cleanup_pass (reg : Registry) (now : ℚ) : Registry × List String :=
  let closed := (reg.filter (fun pr => host_grace_expired now pr.2)).map (·.1)
  let kept := (reg.filter (fun pr => !(host_grace_expired now pr.2))).map
      (fun pr => (pr.1, cleanup_room_participants now pr.2))
  (kept, closed)

/-- The count-governing prefix of the `start_game` handler: clamp the
requested per-game song count into [1, 30] and the series game count into
[1, 5], shuffle (a permutation, irrelevant to counts) and keep the first
`song_count * games_count` tracks, and refuse to start when the playlist is
too small.  On success the finalize loop appends exactly one generated
question per selected track to `room.all_questions`, so the returned
selection length is the number of questions prepared.  (A playlist with no
playable audio also aborts before generation; that check is orthogonal to
the counts.) -/
def handle_start_game_select {α : Type} (song_count games_count : ℤ)
    (tracks : List α) : Option (ℤ × ℤ × List α) :=
  let sc := max 1 (min 30 song_count)
  let gc := max 1 (min 5 games_count)
  let total_songs_needed := sc * gc
  let selected := tracks.take total_songs_needed.toNat
  if selected.length < total_songs_needed.toNat then none
  else some (sc, gc, selected)

/-! Concrete fixtures used by the witness and counterexample theorems. -/

/-- A four-option question whose correct option is index 1. -/
def exQuestion : Question :=
  { options := ["Artist W", "Artist X", "Artist Y", "Artist Z"],
    correct_answer := 1,
    correct_artist := "Artist X" }

/-- A playing room with a single participant who has not yet answered. -/
def exRoomC1 : Room :=
  { host_sid := "h",
    participants := [("p1", { name := "P1", score := 0 })],
    current_question := some exQuestion,
    questions := List.replicate 3 exQuestion,
    question_index := 0,
    state := "playing" }

/-- A playing room whose question has been prepared but not yet sent. -/
def exRoomC2 : Room :=
  { host_sid := "h",
    participants := [("p1", { name := "P1", score := 0 })],
    current_question := some exQuestion,
    questions := [exQuestion],
    question_index := 0,
    state := "playing",
    question_start_time := none }

/-- A playing room used to exercise a double `record_answer`. -/
def exRoomC3 : Room :=
  { host_sid := "h",
    participants := [("p1", { name := "P1", score := 0 })],
    current_question := some exQuestion,
    questions := [exQuestion],
    question_index := 0,
    state := "playing" }

/-- A 10-question room at the 6th question (inside the 2x band). -/
def exRoomC4a : Room :=
  { host_sid := "h",
    questions := List.replicate 10 exQuestion,
    question_index := 5,
    state := "playing" }

/-- The same 10-question room at the 9th question (inside the 4x band). -/
def exRoomC4b : Room :=
  { host_sid := "h",
    questions := List.replicate 10 exQuestion,
    question_index := 8,
    state := "playing" }

/-- A 10-question room at its first question, with participants A and B:
A answered the correct option at t = 0, B at t = 5. -/
def exRoomC5 : Room :=
  { host_sid := "h",
    participants := [("A", { name := "Alice", score := 0 }),
                     ("B", { name := "Bob", score := 0 })],
    current_question := some exQuestion,
    questions := List.replicate 10 exQuestion,
    question_index := 0,
    state := "playing",
    answers := [(0,
      [("A", { answer := 1, timestamp := 0, server_received := 0,
               used_client_time := false }),
       ("B", { answer := 1, timestamp := 5, server_received := 5,
               used_client_time := false })])] }

/-- A 2-game series room that has just shown its last (only) question of
game 1: one participant with game score 50 and series score 10. -/
def exRoomC6 : Room :=
  { host_sid := "h",
    participants := [("a", { name := "Ann", score := 50 })],
    current_question := some exQuestion,
    questions := [exQuestion],
    question_index := 0,
    state := "playing",
    games_in_series := 2,
    current_game_number := 1,
    series_scores := [("a", 10)],
    all_questions := [exQuestion, exQuestion],
    game_questions_map := [(1, [0]), (2, [1])] }

/-- A mid-question room holding a disconnected participant "old" (score 42,
series score 7) with a recorded answer for the in-progress question. -/
def exRoomC7 : Room :=
  { host_sid := "h",
    participants := [("old", { name := "Cleo", score := 42,
                               disconnected := true,
                               disconnect_time := some 100 })],
    current_question := some exQuestion,
    questions := [exQuestion],
    question_index := 0,
    state := "playing",
    series_scores := [("old", 7)],
    answers := [(0, [("old", { answer := 1, timestamp := 2,
                               server_received := 2,
                               used_client_time := false })])] }

/-- A mid-game room whose host disconnected at t = 1000, with one connected
participant. -/
def exRoomC8 : Room :=
  { host_sid := "h",
    participants := [("p1", { name := "P1", score := 30 })],
    current_question := some exQuestion,
    questions := [exQuestion, exQuestion],
    question_index := 1,
    state := "playing",
    host_disconnected := true,
    host_disconnect_time := some 1000 }

/-- A playing room that has advanced to question index 1 (so a timer
scheduled for index 0 is stale). -/
def exRoomC9 : Room :=
  { host_sid := "h",
    participants := [("p1", { name := "P1", score := 0 })],
    current_question := some exQuestion,
    questions := [exQuestion, exQuestion],
    question_index := 1,
    state := "playing",
    voting_closed := false }

/-! Association-list facts about the Python-dict operations. -/

theorem lookup_eq_none_of_not_mem_keys {κ α : Type} [BEq κ] [LawfulBEq κ]
    {m : List (κ × α)} {k : κ} (h : k ∉ m.map Prod.fst) :
    m.lookup k = none := by
  induction m with
  | nil => rfl
  | cons hd tl ih =>
    simp only [List.map_cons, List.mem_cons, not_or] at h
    have hne : (k == hd.1) = false := beq_false_of_ne h.1
    simp [List.lookup, hne, ih h.2]

theorem mem_of_lookup_eq_some {κ α : Type} [BEq κ] [LawfulBEq κ]
    {m : List (κ × α)} {k : κ} {v : α} (h : m.lookup k = some v) :
    (k, v) ∈ m := by
  induction m with
  | nil => simp [List.lookup] at h
  | cons hd tl ih =>
    rcases hb : (k == hd.1) with _ | _
    · simp only [List.lookup, hb] at h
      exact List.mem_cons_of_mem _ (ih h)
    · simp only [List.lookup, hb] at h
      have hk : k = hd.1 := eq_of_beq hb
      cases h
      rcases hd with ⟨k₀, v₀⟩
      simp_all

theorem lookup_unique_of_nodup {κ α : Type} [BEq κ] [LawfulBEq κ]
    {m : List (κ × α)} {k : κ} {v : α}
    (hnodup : (m.map Prod.fst).Nodup) (hlook : m.lookup k = some v) :
    ∀ w, (k, w) ∈ m → w = v := by
  induction m with
  | nil => simp [List.lookup] at hlook
  | cons hd tl ih =>
    simp only [List.map_cons, List.nodup_cons] at hnodup
    intro w hw
    rcases hb : (k == hd.1) with _ | _
    · simp only [List.lookup, hb] at hlook
      rcases List.mem_cons.mp hw with heq | htl
      · exfalso
        have : k = hd.1 := by rw [← heq]
        rw [this] at hb
        simp at hb
      · exact ih hnodup.2 hlook w htl
    · simp only [List.lookup, hb] at hlook
      have hk : k = hd.1 := eq_of_beq hb
      rcases List.mem_cons.mp hw with heq | htl
      · have : w = hd.2 := by
          have := congrArg Prod.snd heq
          simpa using this
        rw [this]
        exact Option.some.inj hlook.symm |>.symm
      · exfalso
        apply hnodup.1
        rw [← hk]
        exact List.mem_map.mpr ⟨(k, w), htl, rfl⟩

theorem dictSet_lookup_self {κ α : Type} [BEq κ] [LawfulBEq κ]
    (m : List (κ × α)) (k : κ) (v : α) :
    (dictSet m k v).lookup k = some v := by
  induction m with
  | nil => simp [dictSet, List.lookup]
  | cons hd tl ih =>
    rcases hb : (hd.1 == k) with _ | _
    · have hne : (k == hd.1) = false := by
        rcases hb' : (k == hd.1) with _ | _
        · rfl
        · rw [eq_of_beq hb', beq_self_eq_true] at hb
          exact hb
      simp [dictSet, hb, List.lookup, hne, ih]
    · simp [dictSet, hb, List.lookup]

theorem dictSet_lookup_ne {κ α : Type} [BEq κ] [LawfulBEq κ]
    (m : List (κ × α)) (k k' : κ) (v : α) (h : k' ≠ k) :
    (dictSet m k v).lookup k' = m.lookup k' := by
  have hne : (k' == k) = false := beq_false_of_ne h
  induction m with
  | nil => simp [dictSet, List.lookup, hne]
  | cons hd tl ih =>
    rcases hb : (hd.1 == k) with _ | _
    · simp only [dictSet, hb, Bool.false_eq_true, if_false, List.lookup]
      rcases hb' : (k' == hd.1) with _ | _
      · simpa [hb'] using ih
      · simp [hb']
    · have hd1 : hd.1 = k := eq_of_beq hb
      have hk' : (k' == hd.1) = false := by rw [hd1]; exact hne
      simp [dictSet, hb, List.lookup, hne, hk']

theorem dictDel_lookup_ne {κ α : Type} [BEq κ] [LawfulBEq κ]
    (m : List (κ × α)) (k k' : κ) (h : k' ≠ k) :
    (dictDel m k).lookup k' = m.lookup k' := by
  have hne : (k' == k) = false := beq_false_of_ne h
  induction m with
  | nil => rfl
  | cons hd tl ih =>
    rcases hb : (hd.1 == k) with _ | _
    · simp only [dictDel, hb, Bool.false_eq_true, if_false, List.lookup]
      rcases hb' : (k' == hd.1) with _ | _
      · simpa [hb'] using ih
      · simp [hb']
    · have hd1 : hd.1 = k := eq_of_beq hb
      have hk' : (k' == hd.1) = false := by rw [hd1]; exact hne
      simp [dictDel, hb, List.lookup, hk']

theorem foldl_series_lookup_not_mem (l : List (String × Participant))
    (init : List (String × ℤ)) (sid : String)
    (h : sid ∉ l.map Prod.fst) :
    (l.foldl (fun acc (p : String × Participant) =>
        dictSet acc p.1 ((acc.lookup p.1).getD 0 + p.2.score)) init).lookup sid
      = init.lookup sid := by
  induction l generalizing init with
  | nil => rfl
  | cons hd tl ih =>
    simp only [List.map_cons, List.mem_cons, not_or] at h
    rw [List.foldl_cons, ih _ h.2,
      dictSet_lookup_ne _ _ _ _ h.1]

theorem foldl_series_lookup_mem (l : List (String × Participant))
    (init : List (String × ℤ)) (sid : String) (p : Participant)
    (hmem : (sid, p) ∈ l) (hnodup : (l.map Prod.fst).Nodup) :
    ((l.foldl (fun acc (q : String × Participant) =>
        dictSet acc q.1 ((acc.lookup q.1).getD 0 + q.2.score)) init).lookup sid).getD 0
      = (init.lookup sid).getD 0 + p.score := by
  induction l generalizing init with
  | nil => simp at hmem
  | cons hd tl ih =>
    simp only [List.map_cons, List.nodup_cons] at hnodup
    rcases List.mem_cons.mp hmem with heq | htl
    · have hsid : sid = hd.1 := by rw [← heq]
      have hnot : sid ∉ tl.map Prod.fst := hsid ▸ hnodup.1
      rw [List.foldl_cons, foldl_series_lookup_not_mem _ _ _ hnot, ← hsid,
        dictSet_lookup_self]
      have hp : p = hd.2 := by
        have : (sid, p).2 = hd.2 := by rw [heq]
        simpa using this
      simp [hp]
    · have hsid : sid ≠ hd.1 := by
        intro hc
        apply hnodup.1
        rw [← hc]
        exact List.mem_map.mpr ⟨(sid, p), htl, rfl⟩
      rw [List.foldl_cons, ih _ htl hnodup.2,
        dictSet_lookup_ne _ _ _ _ hsid]

theorem lookup_filter_map_of_kept (reg : Registry) (pin : String)
    (room : Room) (pred : String × Room → Bool) (g : Room → Room)
    (h : reg.lookup pin = some room) (hp : pred (pin, room) = true) :
    ((reg.filter pred).map (fun pr => (pr.1, g pr.2))).lookup pin
      = some (g room) := by
  induction reg with
  | nil => simp [List.lookup] at h
  | cons hd tl ih =>
    rcases hb : (pin == hd.1) with _ | _
    · simp only [List.lookup, hb] at h
      rcases hq : pred hd with _ | _
      · simp only [List.filter_cons, hq]
        exact ih h
      · simp only [List.filter_cons, hq, List.map_cons, List.lookup, hb]
        exact ih h
    · simp only [List.lookup, hb] at h
      have hpin : pin = hd.1 := eq_of_beq hb
      have hhd : hd = (pin, room) := by
        rcases hd with ⟨k₀, r₀⟩
        cases h
        simp [hpin]
      rw [hhd]
      simp [List.filter_cons, hp, List.lookup]

theorem lookup_filter_map_of_dropped (reg : Registry) (pin : String)
    (room : Room) (pred : String × Room → Bool) (g : Room → Room)
    (h : reg.lookup pin = some room) (hp : pred (pin, room) = false)
    (hnodup : (reg.map Prod.fst).Nodup) :
    ((reg.filter pred).map (fun pr => (pr.1, g pr.2))).lookup pin = none := by
  induction reg with
  | nil => rfl
  | cons hd tl ih =>
    simp only [List.map_cons, List.nodup_cons] at hnodup
    rcases hb : (pin == hd.1) with _ | _
    · simp only [List.lookup, hb] at h
      rcases hq : pred hd with _ | _
      · simp only [List.filter_cons, hq]
        exact ih h hnodup.2
      · simp only [List.filter_cons, hq, List.map_cons, List.lookup, hb]
        exact ih h hnodup.2
    · simp only [List.lookup, hb] at h
      have hpin : pin = hd.1 := eq_of_beq hb
      have hhd : hd = (pin, room) := by
        rcases hd with ⟨k₀, r₀⟩
        cases h
        simp [hpin]
      rw [hhd]
      simp only [List.filter_cons, hp, Bool.false_eq_true, if_false]
      apply lookup_eq_none_of_not_mem_keys
      intro hmem
      apply hnodup.1
      rw [← hpin]
      rcases List.mem_map.mp hmem with ⟨pr, hpr, hfst⟩
      rcases List.mem_map.mp hpr with ⟨pr0, hpr0, hmapeq⟩
      have hpr0' : pr0 ∈ tl := (List.mem_filter.mp hpr0).1
      apply List.mem_map.mpr
      refine ⟨pr0, hpr0', ?_⟩
      have : pr.1 = pr0.1 := by rw [← hmapeq]
      rw [← hfst, this]

unseal Rat.add Rat.sub Rat.mul Rat.inv

/-- C1, counterexample.  In a one-participant playing room, the submission
that makes the answer count equal the participant count is accepted and
observed as all-answered, yet `voting_closed` stays `false`: the handler
does not close voting early, contradicting the claim that voting is closed
as soon as every connected participant has submitted. -/
theorem C1_counterexample :
    ((((handle_submit_answer exRoomC1 "p1" 1 .absent 3).1.answers.lookup
        (handle_submit_answer exRoomC1 "p1" 1 .absent 3).1.question_index).getD []).length
      = (handle_submit_answer exRoomC1 "p1" 1 .absent 3).1.participants.length) ∧
    (handle_submit_answer exRoomC1 "p1" 1 .absent 3).2 = .accepted true true ∧
    (handle_submit_answer exRoomC1 "p1" 1 .absent 3).1.voting_closed = false := by
  decide

/-- C1, amended.  When a submission is accepted — even the one observed as
the last outstanding answer, which triggers only the
`all_participants_voted` broadcast — voting remains open; voting is closed
only when the 15-second `question_timeout` task fires for the still-current
question, which runs the close routine: it sets `voting_closed`, clears the
acknowledgment set, and broadcasts the correct answer. -/
theorem C1_amended_no_early_close (room : Room) (sid : String) (answer : ℕ)
    (cts : ClientTimestamp) (now : ℚ) (c all : Bool)
    (hacc : (handle_submit_answer room sid answer cts now).2 = .accepted c all) :
    (handle_submit_answer room sid answer cts now).1.voting_closed = false ∧
    (∀ (reg : Registry) (pin : String) (room0 : Room) (q : Question),
      reg.lookup pin = some room0 →
      room0.voting_closed = false →
      room0.current_question = some q →
      ((question_timeout_fire reg pin room0.question_index).1.lookup pin)
          = some { room0 with voting_closed := true, correct_answer_acks := [] } ∧
      (question_timeout_fire reg pin room0.question_index).2
          = some ⟨q.correct_answer, q.correct_artist⟩) := by
  constructor
  · unfold handle_submit_answer at hacc ⊢
    by_cases h1 : (room.participants.lookup sid).isNone
    · simp [h1] at hacc
    · rcases h2 : room.voting_closed with _ | _
      · by_cases h3 : (((room.answers.lookup room.question_index).getD
            []).lookup sid).isSome
        · simp [h1, h2, h3] at hacc
        · simp only [h1, Bool.false_eq_true, if_false, h2, h3, if_neg,
            if_false]
          unfold Room.check_answer
          rcases hq : (room.record_answer sid answer cts now).current_question with _ | cq
          · simp [Room.record_answer] at hq ⊢
            simp [hq, h2]
          · by_cases hca : answer = cq.correct_answer
            · simp [hq, hca, Room.record_answer, h2]
            · simp [hq, hca, Room.record_answer, h2]
      · simp [h1, h2] at hacc
  · intro reg pin room0 q hlook hopen hq
    unfold question_timeout_fire
    rw [hlook]
    simp only [beq_self_eq_true, if_true, hopen, Bool.not_false, if_true]
    unfold close_voting_and_show_answer
    rw [hlook]
    dsimp only
    rw [hq]
    exact ⟨dictSet_lookup_self _ _ _, rfl⟩

/-- C1, witness for the amended theorem at the concrete one-participant
room: the accepted final submission leaves voting open, and the timeout
task then closes it and reveals the correct artist. -/
theorem C1_amended_witness :
    (handle_submit_answer exRoomC1 "p1" 1 .absent 3).1.voting_closed = false ∧
    ((question_timeout_fire [("1234", exRoomC1)] "1234" exRoomC1.question_index).1.lookup "1234")
        = some { exRoomC1 with voting_closed := true, correct_answer_acks := [] } :=
  ⟨(C1_amended_no_early_close exRoomC1 "p1" 1 .absent 3 true true (by decide)).1,
   ((C1_amended_no_early_close exRoomC1 "p1" 1 .absent 3 true true (by decide)).2
      [("1234", exRoomC1)] "1234" exRoomC1 exQuestion rfl rfl rfl).1⟩

/-- C2, counterexample.  `send_question` itself sets `question_start_time`
to the send instant (here 7), and the `playback_started` handler leaves the
registry — hence `question_start_time` — untouched, contradicting the claim
that the timestamp is set by the playback-started event and not by the
question send. -/
theorem C2_counterexample :
    exRoomC2.question_start_time = none ∧
    ((send_question exRoomC2 7).getD exRoomC2).question_start_time = some 7 ∧
    handle_playback_started [("1234", (send_question exRoomC2 7).getD exRoomC2)] "1234"
      = ([("1234", (send_question exRoomC2 7).getD exRoomC2)], some 0) := by
  decide

/-- C2, amended.  `question_start_time` is set to the send instant inside
`send_question`; the `playback_started` handler mutates no room state at
all (so the answer-window reference clock effectively starts at question
send) — it only broadcasts `start_question_timer` and schedules the
15-second timeout task, capturing the room's current question index. -/
theorem C2_amended_clock_starts_at_send :
    (∀ (room room' : Room) (now : ℚ), send_question room now = some room' →
      room'.question_start_time = some now) ∧
    (∀ (reg : Registry) (pin : String),
      (handle_playback_started reg pin).1 = reg) ∧
    (∀ (reg : Registry) (pin : String) (idx : ℕ),
      (handle_playback_started reg pin).2 = some idx →
      (reg.lookup pin).map (fun r => r.question_index) = some idx) := by
  refine ⟨?_, ?_, ?_⟩
  · intro room room' now h
    unfold send_question at h
    rcases hq : room.current_question with _ | q
    · rw [hq] at h
      cases h
    · rw [hq] at h
      cases h
      rfl
  · intro reg pin
    unfold handle_playback_started
    rcases h : reg.lookup pin with _ | room <;> rfl
  · intro reg pin idx h
    unfold handle_playback_started at h
    rcases hl : reg.lookup pin with _ | room
    · rw [hl] at h
      cases h
    · rw [hl] at h
      cases h
      rfl

/-- C2, witness for the amended theorem at the concrete room: sending at
instant 7 sets the clock to 7, and playback-started leaves the registry
unchanged while scheduling a timeout for index 0. -/
theorem C2_amended_witness :
    ((send_question exRoomC2 7).getD exRoomC2).question_start_time = some 7 ∧
    (handle_playback_started [("1234", exRoomC2)] "1234").1 = [("1234", exRoomC2)] ∧
    ([("1234", exRoomC2)].lookup "1234").map (fun r => r.question_index) = some 0 :=
  ⟨C2_amended_clock_starts_at_send.1 exRoomC2
      ((send_question exRoomC2 7).getD exRoomC2) 7 (by decide),
   C2_amended_clock_starts_at_send.2.1 [("1234", exRoomC2)] "1234",
   C2_amended_clock_starts_at_send.2.2 [("1234", exRoomC2)] "1234" 0 (by decide)⟩

/-- C3, counterexample.  A second bare `record_answer` for the same
identity/question pair is not rejected: the ledger entry count for the pair
does stay at 1, but the stored answer is the second submission — the
originally recorded option and timestamps are overwritten, not retained. -/
theorem C3_counterexample :
    (((exRoomC3.record_answer "p1" 0 .absent 1).answers.lookup 0).getD []).lookup "p1"
        = some { answer := 0, timestamp := 1, server_received := 1,
                 used_client_time := false } ∧
    ((((exRoomC3.record_answer "p1" 0 .absent 1).record_answer "p1" 2 .absent 4).answers.lookup 0).getD []).length
        = 1 ∧
    ((((exRoomC3.record_answer "p1" 0 .absent 1).record_answer "p1" 2 .absent 4).answers.lookup 0).getD []).lookup "p1"
        = some { answer := 2, timestamp := 4, server_received := 4,
                 used_client_time := false } := by
  decide

/-- C3, amended.  The duplicate check lives in the `submit_answer` handler,
not in `record_answer`: a second submission from a participant who already
has a ledger entry for the current question is rejected before
`record_answer` is reached, the room is returned unchanged, and so the
ledger entry count for the pair stays at 1 with the original answer
retained.  (`Room.record_answer` itself would overwrite, as the
counterexample shows.) -/
theorem C3_amended_duplicate_rejected_in_handler (room : Room) (sid : String)
    (answer : ℕ) (cts : ClientTimestamp) (now : ℚ)
    (hmem : (room.participants.lookup sid).isSome)
    (hopen : room.voting_closed = false)
    (hdup : (((room.answers.lookup room.question_index).getD []).lookup sid).isSome) :
    handle_submit_answer room sid answer cts now = (room, .alreadyAnswered) := by
  unfold handle_submit_answer
  have h1 : (room.participants.lookup sid).isNone = false := by
    rcases h : room.participants.lookup sid with _ | v
    · rw [h] at hmem
      simp at hmem
    · rfl
  simp [h1, hopen, hdup]

/-- C3, witness: the handler rejects a second submission in the concrete
room where "p1" already answered, leaving the room unchanged. -/
theorem C3_amended_witness :
    handle_submit_answer
        (exRoomC3.record_answer "p1" 0 .absent 1) "p1" 2 .absent 4
      = (exRoomC3.record_answer "p1" 0 .absent 1, .alreadyAnswered) :=
  C3_amended_duplicate_rejected_in_handler
    (exRoomC3.record_answer "p1" 0 .absent 1) "p1" 2 .absent 4
    (by decide) (by decide) (by decide)

/-- C4.  The progression multiplier: the thresholds computed by the code
(integer divisions `total / 2` and `4 * total / 5`) agree with the spec's
`floor(total * 0.5)` and `floor(total * 0.8)` in exact arithmetic; the
multiplier is 1 up to the first threshold, 2 up to the second, 4 beyond,
takes no value outside {1, 2, 4}, and is monotone non-decreasing in the
question number for a fixed question list. -/
theorem C4_progression_multiplier :
    (∀ n : ℕ, ⌊(n : ℚ) * 0.5⌋₊ = n / 2 ∧ ⌊(n : ℚ) * 0.8⌋₊ = 4 * n / 5) ∧
    (∀ room : Room,
      room.get_score_multiplier = 1 ∨ room.get_score_multiplier = 2 ∨
        room.get_score_multiplier = 4) ∧
    (∀ room : Room,
      (room.question_index + 1 ≤ room.questions.length / 2 →
        room.get_score_multiplier = 1) ∧
      (room.questions.length / 2 < room.question_index + 1 →
        room.question_index + 1 ≤ 4 * room.questions.length / 5 →
        room.get_score_multiplier = 2) ∧
      (4 * room.questions.length / 5 < room.question_index + 1 →
        room.get_score_multiplier = 4)) ∧
    (∀ room room' : Room, room'.questions = room.questions →
      room.question_index ≤ room'.question_index →
      room.get_score_multiplier ≤ room'.get_score_multiplier) := by
  refine ⟨?_, ?_, ?_, ?_⟩
  · intro n
    constructor
    · rw [show (n : ℚ) * 0.5 = (n : ℚ) / ((2 : ℕ) : ℚ) by push_cast; ring]
      exact @Nat.floor_div_eq_div ℚ _ _ n 2
    · rw [show (n : ℚ) * 0.8 = ((4 * n : ℕ) : ℚ) / ((5 : ℕ) : ℚ) by
        push_cast; ring]
      exact @Nat.floor_div_eq_div ℚ _ _ (4 * n) 5
  · intro room
    unfold Room.get_score_multiplier
    dsimp only
    split_ifs <;> simp
  · intro room
    unfold Room.get_score_multiplier
    dsimp only
    refine ⟨?_, ?_, ?_⟩ <;> intros <;> split_ifs <;> omega
  · intro room room' hq hle
    unfold Room.get_score_multiplier
    rw [hq]
    dsimp only
    split_ifs <;> omega

/-- C4, witness: in a 10-question room the spec threshold floor(10 x 0.5)
is 5; the 6th question carries multiplier 2, the 9th carries 4, and the
multiplier did not decrease between them. -/
theorem C4_witness :
    ⌊((10 : ℕ) : ℚ) * 0.5⌋₊ = 5 ∧
    exRoomC4a.get_score_multiplier = 2 ∧
    exRoomC4b.get_score_multiplier = 4 ∧
    exRoomC4a.get_score_multiplier ≤ exRoomC4b.get_score_multiplier :=
  ⟨((C4_progression_multiplier.1 10).1).trans (by decide),
   (C4_progression_multiplier.2.2.1 exRoomC4a).2.1 (by decide) (by decide),
   (C4_progression_multiplier.2.2.1 exRoomC4b).2.2 (by decide),
   C4_progression_multiplier.2.2.2 exRoomC4a exRoomC4b rfl (by decide)⟩

/-- C5.  With two correct responders, A at the reference instant and B five
seconds later, B ranks second: base score 100 x (1 - 0.10 x 1) = 90, time
coefficient max(1 - 0.12 x (5/15), 0.85) = 0.96, award round(90 x 0.96) =
86; at the 1x progression multiplier B's score becomes 86, while A keeps
the rank-1 maximum of 100. -/
theorem C5_two_responder_scenario :
    speedPoints ((exRoomC5.answers.lookup 0).getD []) 1 "B" = 86 ∧
    speedPoints ((exRoomC5.answers.lookup 0).getD []) 1 "A" = 100 ∧
    (100 * (1 - (10/100) * ((2 : ℚ) - 1)) = 90) ∧
    (max (1 - (12/100) * ((5 : ℚ) / 15)) (85/100) = 96/100) ∧
    pythonRound (90 * (96/100)) = 86 ∧
    exRoomC5.get_score_multiplier = 1 ∧
    (exRoomC5.check_answer "B" 1).2 = true ∧
    (exRoomC5.check_answer "B" 1).1.participants.lookup "B"
        = some { name := "Bob", score := 86 } := by
  decide

/-- C9.  The `question_timeout` callback resolves a deleted room and a
stale question index by silent no-op, but the `wait_for_ready` standings
barrier raises `KeyError` when its room was deleted during the wait —
refuting the claim that every timer/barrier callback no-ops silently. -/
theorem C9_stale_callback_divergence :
    wait_for_ready_fire [] "1234" = ([], .keyErrorRaised) ∧
    question_timeout_fire [] "1234" 0 = ([], none) ∧
    question_timeout_fire [("1234", exRoomC9)] "1234" 0
        = ([("1234", exRoomC9)], none) ∧
    exRoomC9.question_index = 1 := by
  decide

/-- C6.  When the standings barrier completes after the last question of a
game, each participant's game score is added into `series_scores`; and
starting the next game resets every per-game score to 0 while leaving
`series_scores` unchanged (so across a series, `series_scores` accumulates
exactly the final score of each completed game). -/
theorem C6_series_fold_and_reset :
    (∀ (reg : Registry) (pin : String) (room : Room) (sid : String)
        (p : Participant),
      reg.lookup pin = some room →
      room.questions.length ≤ room.question_index + 1 →
      (sid, p) ∈ room.participants →
      (room.participants.map Prod.fst).Nodup →
      ((wait_for_ready_fire reg pin).1.lookup pin).map
          (fun r => (r.series_scores.lookup sid).getD 0)
        = some ((room.series_scores.lookup sid).getD 0 + p.score)) ∧
    (∀ (room room' : Room) (sid : String),
      handle_start_next_game room sid = some room' →
      (∀ (q : String) (pd : Participant),
        (q, pd) ∈ room'.participants → pd.score = 0) ∧
      room'.series_scores = room.series_scores) := by
  constructor
  · intro reg pin room sid p hlook hlast hmem hnodup
    unfold wait_for_ready_fire
    rw [hlook]
    dsimp only
    rw [decide_eq_true hlast]
    rcases hg : decide (room.current_game_number ≥ room.games_in_series) with _ | _ <;>
      simp only [eq_self_iff_true, if_true, Bool.false_eq_true, if_false,
        dictSet_lookup_self, Option.map_some', Option.some.injEq] <;>
      exact foldl_series_lookup_mem room.participants room.series_scores sid p hmem hnodup
  · intro room room' sid h
    unfold handle_start_next_game at h
    rcases hh : (room.host_sid != sid) with _ | _
    · rw [hh] at h
      dsimp only [Bool.false_eq_true, if_false] at h
      rcases hm : (room.game_questions_map.lookup (room.current_game_number + 1)).bind
          (fun idxs => idxs.mapM (fun i => room.all_questions.get? i)) with _ | qs
      · rw [hm] at h
        cases h
      · rcases qs with _ | ⟨q0, rest⟩
        · rw [hm] at h
          cases h
        · rw [hm] at h
          cases h
          constructor
          · intro q pd hpd
            dsimp only at hpd
            rcases List.mem_map.mp hpd with ⟨orig, _, heq⟩
            have : pd = { orig.2 with score := 0 } := by
              have := congrArg Prod.snd heq
              simpa using this.symm
            rw [this]
          · rfl
    · rw [hh] at h
      dsimp only [if_true] at h
      cases h

/-- C6, witness: in the concrete 2-game room that just finished game 1,
the barrier folds Ann's game score 50 onto her series score 10, and
`start_next_game` leaves the series ledger alone while zeroing game
scores. -/
theorem C6_witness :
    ((wait_for_ready_fire [("42", exRoomC6)] "42").1.lookup "42").map
        (fun r => (r.series_scores.lookup "a").getD 0)
      = some ((exRoomC6.series_scores.lookup "a").getD 0
          + ({ name := "Ann", score := 50 } : Participant).score) ∧
    ((handle_start_next_game exRoomC6 "h").getD exRoomC6).series_scores
      = exRoomC6.series_scores :=
  ⟨C6_series_fold_and_reset.1 [("42", exRoomC6)] "42" exRoomC6 "a"
      { name := "Ann", score := 50 } rfl (by decide) (by decide) (by decide),
   (C6_series_fold_and_reset.2 exRoomC6
      ((handle_start_next_game exRoomC6 "h").getD exRoomC6) "h" (by decide)).2⟩

/-- C7.  A successful participant rejoin under the same display name
migrates state from the old identity key to the new connection: the handler
reports the preserved score, the new roster entry keeps the name and score
with the disconnected flag cleared, the series score moves to the new key,
and any answer already recorded for the in-progress question moves with
it. -/
theorem C7_rejoin_preserves_state (room : Room) (new_sid name old_sid : String)
    (old : Participant)
    (hfind : room.participants.find? (fun p => p.2.name == name)
      = some (old_sid, old))
    (hne : new_sid ≠ old_sid)
    (hfresh_series : room.series_scores.lookup new_sid = none)
    (hfresh_ans : ((room.answers.lookup room.question_index).getD []).lookup new_sid
      = none) :
    (handle_rejoin_participant room new_sid name).2 = some old.score ∧
    (handle_rejoin_participant room new_sid name).1.participants.lookup new_sid
      = some { name := name, score := old.score, disconnected := false } ∧
    ((handle_rejoin_participant room new_sid name).1.series_scores.lookup new_sid).getD 0
      = (room.series_scores.lookup old_sid).getD 0 ∧
    (((handle_rejoin_participant room new_sid name).1.answers.lookup
        room.question_index).getD []).lookup new_sid
      = ((room.answers.lookup room.question_index).getD []).lookup old_sid := by
  unfold handle_rejoin_participant
  rw [hfind]
  dsimp only
  refine ⟨rfl, dictSet_lookup_self _ _ _, ?_, ?_⟩
  · rcases hs : room.series_scores.lookup old_sid with _ | s
    · simp only [Option.isSome_none, Bool.false_eq_true, if_false, hfresh_series]
    · simp only [Option.isSome_some, if_true]
      rw [dictDel_lookup_ne _ _ _ hne, dictSet_lookup_self]
      rfl
  · rcases ha : room.answers.lookup room.question_index with _ | qMap
    · rw [ha] at hfresh_ans
      dsimp only [Option.bind]
      rw [ha]
      simp
    · rw [ha] at hfresh_ans
      rcases hb : qMap.lookup old_sid with _ | aRec
      · dsimp only [Option.bind]
        rw [hb]
        dsimp only [Option.map]
        rw [ha]
        simp only [Option.getD_some] at hfresh_ans ⊢
        rw [hfresh_ans, hb]
      · dsimp only [Option.bind]
        rw [hb]
        dsimp only [Option.map]
        rw [dictSet_lookup_self]
        simp only [Option.getD_some]
        rw [dictDel_lookup_ne _ _ _ hne, dictSet_lookup_self, hb]

/-- C7, witness: Cleo (score 42, series 7, one recorded answer,
disconnected) rejoins under a fresh connection id and every piece of state
survives under the new key with the disconnected flag cleared. -/
theorem C7_witness :
    (handle_rejoin_participant exRoomC7 "new" "Cleo").2 = some 42 ∧
    (handle_rejoin_participant exRoomC7 "new" "Cleo").1.participants.lookup "new"
      = some { name := "Cleo", score := 42, disconnected := false } ∧
    ((handle_rejoin_participant exRoomC7 "new" "Cleo").1.series_scores.lookup "new").getD 0
      = (exRoomC7.series_scores.lookup "old").getD 0 ∧
    (((handle_rejoin_participant exRoomC7 "new" "Cleo").1.answers.lookup
        exRoomC7.question_index).getD []).lookup "new"
      = ((exRoomC7.answers.lookup exRoomC7.question_index).getD []).lookup "old" :=
  C7_rejoin_preserves_state exRoomC7 "new" "Cleo" "old"
    { name := "Cleo", score := 42, disconnected := true,
      disconnect_time := some 100 }
    (by decide) (by decide) (by decide) (by decide)

/-- C8.  Host grace period, one sweeper pass at a time: 29 seconds after the
host disconnect the room survives the pass untouched (no closure notice for
it), and a host rejoin then still delivers the intact mid-game state; 31
seconds after the disconnect the pass deletes the room and emits the
`room_closed` notice, the room being dropped whole with its participant
cleanup skipped. -/
theorem C8_host_grace_period (reg : Registry) (pin new_sid : String)
    (room : Room) (t0 : ℚ)
    (hlook : reg.lookup pin = some room)
    (hnodup : (reg.map Prod.fst).Nodup)
    (hdisc : room.host_disconnected = true)
    (htime : room.host_disconnect_time = some t0)
    (hplaying : room.state = "playing")
    (hconn : ∀ p ∈ room.participants,
      participant_grace_expired (t0 + 29) p.2 = false) :
    (cleanup_pass reg (t0 + 29)).1.lookup pin = some room ∧
    pin ∉ (cleanup_pass reg (t0 + 29)).2 ∧
    ((handle_rejoin_host (cleanup_pass reg (t0 + 29)).1 pin new_sid).2).map
        (fun resp => (resp.state, resp.current_question, resp.question_number,
          resp.total_questions, resp.voting_closed))
      = some ("playing", room.current_question, some (room.question_index + 1),
          some room.questions.length, some room.voting_closed) ∧
    (cleanup_pass reg (t0 + 31)).1.lookup pin = none ∧
    pin ∈ (cleanup_pass reg (t0 + 31)).2 := by
  have h29 : host_grace_expired (t0 + 29) room = false := by
    unfold host_grace_expired
    rw [hdisc, htime]
    simp only [Bool.true_and]
    rw [show t0 + 29 - t0 = (29 : ℚ) by ring]
    norm_num [GRACE_PERIOD]
  have h31 : host_grace_expired (t0 + 31) room = true := by
    unfold host_grace_expired
    rw [hdisc, htime]
    simp only [Bool.true_and]
    rw [show t0 + 31 - t0 = (31 : ℚ) by ring]
    norm_num [GRACE_PERIOD]
  have hclean : cleanup_room_participants (t0 + 29) room = room := by
    unfold cleanup_room_participants
    have : room.participants.filter
        (fun p => !(participant_grace_expired (t0 + 29) p.2)) = room.participants := by
      apply List.filter_eq_self.mpr
      intro a ha
      rw [hconn a ha]
      rfl
    rw [this]
  have hkept : (cleanup_pass reg (t0 + 29)).1.lookup pin = some room := by
    unfold cleanup_pass
    dsimp only
    rw [lookup_filter_map_of_kept reg pin room _ _ hlook (by rw [h29]; rfl), hclean]
  refine ⟨hkept, ?_, ?_, ?_, ?_⟩
  · intro hmem
    unfold cleanup_pass at hmem
    dsimp only at hmem
    rcases List.mem_map.mp hmem with ⟨pr, hpr, hfst⟩
    have hpr' := List.mem_filter.mp hpr
    rcases pr with ⟨k, r⟩
    dsimp only at hfst
    subst hfst
    have hr : r = room := lookup_unique_of_nodup hnodup hlook r hpr'.1
    rw [hr] at hpr'
    rw [h29] at hpr'
    simpa using hpr'.2
  · unfold handle_rejoin_host
    rw [hkept]
    dsimp only
    rw [hplaying]
    simp
  · unfold cleanup_pass
    dsimp only
    exact lookup_filter_map_of_dropped reg pin room _ _ hlook
      (by rw [h31]; rfl) hnodup
  · unfold cleanup_pass
    dsimp only
    apply List.mem_map.mpr
    refine ⟨(pin, room), ?_, rfl⟩
    apply List.mem_filter.mpr
    exact ⟨mem_of_lookup_eq_some hlook, by rw [h31]⟩

/-- C8, witness: host disconnected at t = 1000; the sweeper pass at t =
1029 keeps room "77" intact and a rejoin then returns the mid-game payload,
while the pass at t = 1031 deletes the room and broadcasts the closure. -/
theorem C8_witness :
    (cleanup_pass [("77", exRoomC8)] (1000 + 29)).1.lookup "77" = some exRoomC8 ∧
    "77" ∉ (cleanup_pass [("77", exRoomC8)] (1000 + 29)).2 ∧
    ((handle_rejoin_host (cleanup_pass [("77", exRoomC8)] (1000 + 29)).1 "77" "h2").2).map
        (fun resp => (resp.state, resp.current_question, resp.question_number,
          resp.total_questions, resp.voting_closed))
      = some ("playing", exRoomC8.current_question, some (exRoomC8.question_index + 1),
          some exRoomC8.questions.length, some exRoomC8.voting_closed) ∧
    (cleanup_pass [("77", exRoomC8)] (1000 + 31)).1.lookup "77" = none ∧
    "77" ∈ (cleanup_pass [("77", exRoomC8)] (1000 + 31)).2 :=
  C8_host_grace_period [("77", exRoomC8)] "77" "h2" exRoomC8 1000
    rfl (by decide) (by decide) (by decide) (by decide) (by decide)

/-- C10.  The `start_game` handler clamps the requested per-game song count
into [1, 30] and the series game count into [1, 5] before selecting tracks;
when the start succeeds, exactly `clamped songs x clamped games` tracks are
selected — one question is generated per selected track — and that total
never exceeds 150. -/
theorem C10_start_game_clamps {α : Type} (song_count games_count : ℤ)
    (tracks : List α) (sc gc : ℤ) (sel : List α)
    (h : handle_start_game_select song_count games_count tracks
      = some (sc, gc, sel)) :
    sc = max 1 (min 30 song_count) ∧ gc = max 1 (min 5 games_count) ∧
    1 ≤ sc ∧ sc ≤ 30 ∧ 1 ≤ gc ∧ gc ≤ 5 ∧
    (sel.length : ℤ) = sc * gc ∧ sel.length ≤ 150 := by
  unfold handle_start_game_select at h
  dsimp only at h
  by_cases hlen : (tracks.take (max 1 (min 30 song_count) * max 1 (min 5 games_count)).toNat).length
      < (max 1 (min 30 song_count) * max 1 (min 5 games_count)).toNat
  · rw [if_pos hlen] at h
    cases h
  · rw [if_neg hlen] at h
    have hsc : sc = max 1 (min 30 song_count) := by
      have := congrArg (fun t : ℤ × ℤ × List α => t.1) (Option.some.inj h)
      simpa using this.symm
    have hgc : gc = max 1 (min 5 games_count) := by
      have := congrArg (fun t : ℤ × ℤ × List α => t.2.1) (Option.some.inj h)
      simpa using this.symm
    have hsel : sel = tracks.take (max 1 (min 30 song_count) * max 1 (min 5 games_count)).toNat := by
      have := congrArg (fun t : ℤ × ℤ × List α => t.2.2) (Option.some.inj h)
      simpa using this.symm
    have h1 : (1 : ℤ) ≤ sc := by rw [hsc]; exact le_max_left _ _
    have h30 : sc ≤ 30 := by
      rw [hsc]
      apply max_le (by norm_num)
      exact min_le_left _ _
    have hg1 : (1 : ℤ) ≤ gc := by rw [hgc]; exact le_max_left _ _
    have hg5 : gc ≤ 5 := by
      rw [hgc]
      apply max_le (by norm_num)
      exact min_le_left _ _
    have hlen' : sel.length = (sc * gc).toNat := by
      have hle := List.length_take_le
        ((max 1 (min 30 song_count) * max 1 (min 5 games_count)).toNat) tracks
      rw [hsel, hsc, hgc]
      omega
    have hnonneg : (0 : ℤ) ≤ sc * gc :=
      mul_nonneg (by linarith) (by linarith)
    have hcast : (sel.length : ℤ) = sc * gc := by
      rw [hlen']
      exact Int.toNat_of_nonneg hnonneg
    refine ⟨hsc, hgc, h1, h30, hg1, hg5, hcast, ?_⟩
    have : (sel.length : ℤ) ≤ 150 := by
      rw [hcast]
      calc sc * gc ≤ 30 * 5 :=
            mul_le_mul h30 hg5 (by linarith) (by norm_num)
        _ = 150 := by norm_num
    exact_mod_cast this

/-- C10, witness: a request for 5 songs and 2 games over a 12-track
playlist selects exactly 10 tracks, within every bound. -/
theorem C10_witness :
    (5 : ℤ) = max 1 (min 30 5) ∧ (2 : ℤ) = max 1 (min 5 2) ∧
    (1 : ℤ) ≤ 5 ∧ (5 : ℤ) ≤ 30 ∧ (1 : ℤ) ≤ 2 ∧ (2 : ℤ) ≤ 5 ∧
    ((((List.range 12).take 10).length : ℤ) = 5 * 2) ∧
    ((List.range 12).take 10).length ≤ 150 :=
  C10_start_game_clamps 5 2 (List.range 12) 5 2 ((List.range 12).take 10)
    (by decide)

end Blindtest
